import Mathlib

/-!
Shallow embedding of `src/rdb_protocol/terms/db_table.cc` (RethinkDB DDL
terms: db, db_create, db_drop, db_list, table, table_create, table_drop,
table_list, sync, get, get_all).

The file under verification orchestrates collaborators that live outside
the provided source (metadata searcher, blueprint planner, propagation
coordinator, readiness waiter, name validation).  Those are modelled from
the specification, each with a doc comment saying so; everything else is
translated from the C++ source.

State-passing convention: every metadata write operation is a pure
function from an environment and the current authoritative snapshot to an
`OpOut`, which records the authoritative snapshot after the operation,
the list of snapshots submitted to `join_and_wait_to_propagate` (the
commit trace), and the operation's result (a token string or an error).
An exception thrown before `join_and_wait_to_propagate` leaves the
authoritative store untouched, so such paths return the input snapshot
and an empty commit trace.
-/

namespace RethinkDB

abbrev UUID := Nat

/-- `nil_uuid()` from the source, modelled as 0. -/
def nilUuid : UUID := 0

/-- Modelled from the spec (§3 VersionedValue): a `vclock_t<name_string_t>`
value, carrying the value, the writer identity it was versioned at, and
whether the version-vector merge has left it in conflict.  The vector
clock itself is abstracted to the conflict flag plus the last writer,
which is all the terms in the source observe (`get`, `in_conflict`). -/
structure VName where
  value : String
  writer : UUID
  inConflict : Bool
deriving DecidableEq, Repr

/-- `deletable_t<T>` (spec §3 MetadataRecord): an entity wrapped with a
deletion tombstone.  `make_deletable` starts alive; `mark_deleted` sets
the tombstone. -/
structure Deletable (α : Type) where
  entity : α
  deleted : Bool
deriving DecidableEq, Repr

def make_deletable {α : Type} (a : α) : Deletable α := ⟨a, false⟩

def Deletable.mark_deleted {α : Type} (r : Deletable α) : Deletable α :=
  ⟨r.entity, true⟩

/-- `database_semilattice_metadata_t`: just a versioned name. -/
structure DatabaseRecord where
  name : VName
deriving DecidableEq, Repr

/-- `ack_expectation_t`: an expected acknowledgement count plus the
hard/soft durability flag. -/
structure AckExpectation where
  expectation : Nat
  hardDurability : Bool
deriving DecidableEq, Repr

/-- `namespace_semilattice_metadata_t` (spec §3 Table): owning database,
datacenter affinity (`nilUuid` meaning none), versioned name, primary
key, and the per-datacenter ack-expectation map. -/
structure NamespaceRecord where
  db_id : UUID
  dc_id : UUID
  name : VName
  primary_key : String
  ack_expectations : List (UUID × AckExpectation)
deriving DecidableEq, Repr

/-- `datacenter_semilattice_metadata_t`: just a versioned name. -/
structure DatacenterRecord where
  name : VName
deriving DecidableEq, Repr

/-- `cluster_semilattice_metadata_t`: the aggregate snapshot that DDL
operations read, mutate locally and submit for propagation.  The maps
are modelled as association lists in iteration order. -/
structure Snapshot where
  databases : List (UUID × Deletable DatabaseRecord)
  namespaces : List (UUID × Deletable NamespaceRecord)
  datacenters : List (UUID × Deletable DatacenterRecord)
deriving DecidableEq, Repr

/-- `metadata_search_status_t`. -/
inductive MetadataSearchStatus where
  | success
  | errNone
  | errMultiple
deriving DecidableEq, Repr

/-- Errors surfaced by an operation.  `user` is an `rfail`/`rcheck` with
`base_exc_t::GENERIC` (recoverable, exact message text); `fatal` is a
`guarantee`/`r_sanity_check` failure (internal invariant violation). -/
inductive ErrorT where
  | user (msg : String)
  | fatal (msg : String)
deriving DecidableEq, Repr

/-- Modelled from the spec (§4.1 MetadataSearcher, name predicate): the
records matching a by-name search are the non-deleted entries whose
versioned name is not in conflict and whose name equals the target. -/
def dbMatches (s : Snapshot) (nm : String) : List (UUID × Deletable DatabaseRecord) :=
  s.databases.filter fun p =>
    !p.2.deleted && !p.2.entity.name.inConflict && p.2.entity.name.value == nm

/-- Modelled from the spec (§4.1): `find_uniq` over the database map:
no match is `errNone`, exactly one is `success` with the entry, more than
one is `errMultiple`. -/
def findUniqDb (s : Snapshot) (nm : String) :
    MetadataSearchStatus × Option (UUID × Deletable DatabaseRecord) :=
  match dbMatches s nm with
  | [] => (.errNone, none)
  | [r] => (.success, some r)
  | r :: _ :: _ => (.errMultiple, some r)

/-- Modelled from the spec (§4.1): datacenter by-name matches. -/
def dcMatches (s : Snapshot) (nm : String) : List (UUID × Deletable DatacenterRecord) :=
  s.datacenters.filter fun p =>
    !p.2.deleted && !p.2.entity.name.inConflict && p.2.entity.name.value == nm

/-- `namespace_predicate_t` (modelled from the spec §4.1): matches
non-deleted tables scoped to a database id, optionally also matching a
non-conflicted name. -/
def nsPred (nm : Option String) (dbId : UUID) (p : UUID × Deletable NamespaceRecord) : Bool :=
  !p.2.deleted &&
  (match nm with
   | none => true
   | some n => !p.2.entity.name.inConflict && p.2.entity.name.value == n) &&
  p.2.entity.db_id == dbId

def nsMatches (s : Snapshot) (nm : Option String) (dbId : UUID) :
    List (UUID × Deletable NamespaceRecord) :=
  s.namespaces.filter (nsPred nm dbId)

/-- Modelled from the spec (§4.1): `find_uniq` over the namespace map. -/
def findUniqNs (s : Snapshot) (nm : Option String) (dbId : UUID) :
    MetadataSearchStatus × Option (UUID × Deletable NamespaceRecord) :=
  match nsMatches s nm dbId with
  | [] => (.errNone, none)
  | [r] => (.success, some r)
  | r :: _ :: _ => (.errMultiple, some r)

/-- Modelled from the spec (§6): `name_string_t` character validity.  A
name is valid when it is nonempty and made of ASCII letters, digits and
underscores; the precise character set does not decide any claim, only
that some strings fail validation. -/
def validNameChar (c : Char) : Bool :=
  c.isAlphanum || c == '_'

def validName (s : String) : Bool :=
  !s.isEmpty && s.toList.all validNameChar

/-- `name_string_t::valid_char_msg`, the rule description interpolated
into the invalid-name message. -/
def validCharMsg : String := "use A-Za-z0-9_ only"

/-- `get_name` from the source: validates a raw string as a name and
fails with `"%s name `%s` invalid (%s)."` using the caller's entity-kind
string. -/
def get_name (raw : String) (type_str : String) : Except ErrorT String :=
  if validName raw then .ok raw
  else .error (.user (type_str ++ " name `" ++ raw ++ "` invalid (" ++ validCharMsg ++ ")."))

/-- Modelled from the spec (§4.1, §6): `meta_get_uuid` over the database
searcher — `rcheck`s that the by-name search found a unique match,
failing with the caller-supplied message otherwise, and returns the id. -/
def meta_get_uuid_db (s : Snapshot) (nm : String) (msg : String) : Except ErrorT UUID :=
  match findUniqDb s nm with
  | (.success, some r) => .ok r.1
  | _ => .error (.user msg)

/-- Modelled from the spec (§4.1, §6): `meta_get_uuid` over the
datacenter searcher. -/
def meta_get_uuid_dc (s : Snapshot) (nm : String) (msg : String) : Except ErrorT UUID :=
  match dcMatches s nm with
  | [r] => .ok r.1
  | _ => .error (.user msg)

/-- The environment a metadata write operation runs against:
`this_machine()` (the caller's writer identity), the uuid
`generate_uuid()` will return, the blueprint planner, the readiness
waiter's outcome, and the initial ack-expectation map `new_namespace`
builds.

`plan` models `fill_in_blueprints` (spec §4.2): it may fail with a
MissingMachine message when the metadata references a machine absent
from the live directory; on success it only fills role assignments,
which lie outside this data model, so success carries no snapshot
change.

`readiness_interrupted` models the outcome of
`wait_for_rdb_table_readiness` (spec §4.4): `true` means the wait was
interrupted by the caller's interruptor. -/
structure Env where
  this_machine : UUID
  fresh_uuid : UUID
  plan : Snapshot → Except String Unit
  readiness_interrupted : Bool
  initial_ack_map : List (UUID × AckExpectation)

instance exceptDecEq {ε α : Type} [DecidableEq ε] [DecidableEq α] :
    DecidableEq (Except ε α) := fun x y =>
  match x, y with
  | .ok a, .ok b => if h : a = b then .isTrue (by simp [h]) else .isFalse (by simp [h])
  | .error a, .error b => if h : a = b then .isTrue (by simp [h]) else .isFalse (by simp [h])
  | .ok _, .error _ => .isFalse (by simp)
  | .error _, .ok _ => .isFalse (by simp)

/-- The outcome of a metadata write operation: the authoritative
snapshot afterwards, the trace of snapshots submitted to
`join_and_wait_to_propagate` (spec §4.3: each submission is merged and
becomes the authoritative snapshot), and the result. -/
structure OpOut where
  auth : Snapshot
  commits : List Snapshot
  result : Except ErrorT String
deriving DecidableEq, Repr

/-- `db_term_t::eval_impl`: validate the name, look the database up by
name (failing with `"Database `%s` does not exist."`), return a handle
carrying the id and name. -/
structure DbHandle where
  id : UUID
  name : String
deriving DecidableEq, Repr

def db_term_eval (s : Snapshot) (raw : String) : Except ErrorT DbHandle :=
  match get_name raw "Database" with
  | .error e => .error e
  | .ok db_name =>
    match meta_get_uuid_db s db_name
        ("Database `" ++ db_name ++ "` does not exist.") with
    | .error e => .error e
    | .ok uuid => .ok ⟨uuid, db_name⟩

/-- `db_create_term_t::write_eval_impl`: validate the name; fail with
`"Database `%s` already exists."` unless the by-name search status is
`ERR_NONE`; otherwise insert a fresh record versioned at this machine,
run the blueprint planner (a MissingMachine failure is re-raised as a
generic user error), and propagate.  `db_create_mutate` is the local
insertion of the fresh record, versioned at this machine. -/
def db_create_mutate (env : Env) (s : Snapshot) (db_name : String) : Snapshot :=
  { s with databases := s.databases ++
      [(env.fresh_uuid, make_deletable ⟨⟨db_name, env.this_machine, false⟩⟩)] }

def db_create (env : Env) (s : Snapshot) (raw : String) : OpOut :=
  match get_name raw "Database" with
  | .error e => ⟨s, [], .error e⟩
  | .ok db_name =>
    match (findUniqDb s db_name).1 with
    | .errNone =>
      let s1 := db_create_mutate env s db_name
      match env.plan s1 with
      | .error msg => ⟨s, [], .error (.user msg)⟩
      | .ok _ => ⟨s1, [s1], .ok "created"⟩
    | _ => ⟨s, [], .error (.user ("Database `" ++ db_name ++ "` already exists."))⟩

/-- The local mutation performed by `db_drop_term_t::write_eval_impl`
after the existence check: every non-deleted table matching the database
id is tombstoned (the searcher iteration already skips deleted records),
then the database record itself is tombstoned. -/
def db_drop_mutate (s : Snapshot) (db_id : UUID) : Snapshot :=
  { s with
    namespaces := s.namespaces.map fun p =>
      if nsPred none db_id p then (p.1, p.2.mark_deleted) else p,
    databases := s.databases.map fun p =>
      if p.1 == db_id then (p.1, p.2.mark_deleted) else p }

/-- `db_drop_term_t::write_eval_impl`: validate the name; `rcheck` that
the by-name search status is `SUCCESS` (else `"Database `%s` does not
exist."`); `guarantee` the found record is not deleted; tombstone all
the database's tables and then the database in one local mutation; plan;
propagate once. -/
def db_drop (env : Env) (s : Snapshot) (raw : String) : OpOut :=
  match get_name raw "Database" with
  | .error e => ⟨s, [], .error e⟩
  | .ok db_name =>
    match findUniqDb s db_name with
    | (.success, some r) =>
      if r.2.deleted then ⟨s, [], .error (.fatal "guarantee failed")⟩
      else
        let s1 := db_drop_mutate s r.1
        match env.plan s1 with
        | .error msg => ⟨s, [], .error (.user msg)⟩
        | .ok _ => ⟨s1, [s1], .ok "dropped"⟩
    | _ => ⟨s, [], .error (.user ("Database `" ++ db_name ++ "` does not exist."))⟩

/-- `durability_requirement_t`. -/
inductive DurabilityRequirement where
  | default
  | hard
  | soft
deriving DecidableEq, Repr

/-- `is_hard` from the source: the default and hard requirements are
hard; soft is not. -/
def is_hard : DurabilityRequirement → Bool
  | .default => true
  | .hard => true
  | .soft => false

/-- Modelled from the spec (§6, `durability∈\x7bhard,soft\x7d`):
`parse_durability_optarg` maps an absent optarg to the default
requirement and the strings "hard"/"soft" to the corresponding
requirement, failing on anything else. -/
def parse_durability_optarg : Option String → Except ErrorT DurabilityRequirement
  | none => .ok .default
  | some s =>
    if s = "hard" then .ok .hard
    else if s = "soft" then .ok .soft
    else .error (.user ("Durability option `" ++ s ++ "` unrecognized."))

/-- The datacenter resolution step at the top of
`table_create_term_t::write_eval_impl`: no datacenter optarg leaves the
id nil; otherwise the raw string is validated by `get_name` with the
type string "Table" and then resolved with `meta_get_uuid` against the
datacenter searcher, failing with `"Datacenter `%s` does not exist."`. -/
def resolve_datacenter (s : Snapshot) (dcArg : Option String) : Except ErrorT UUID :=
  match dcArg with
  | none => .ok nilUuid
  | some raw =>
    match get_name raw "Table" with
    | .error e => .error e
    | .ok nm => meta_get_uuid_dc s nm ("Datacenter `" ++ nm ++ "` does not exist.")

/-- Modelled from the spec (§3): `new_namespace` builds a table record
with the supplied machine (writer identity for the versioned name),
database id, datacenter id, name and primary key.  The contents of the
initial ack-expectation map are not fixed by the spec, so they are taken
from the environment. -/
def new_namespace (env : Env) (db_id dc_id : UUID) (nm : String)
    (primary_key : String) : NamespaceRecord :=
  ⟨db_id, dc_id, ⟨nm, env.this_machine, false⟩, primary_key, env.initial_ack_map⟩

/-- The durability loop in `table_create_term_t::write_eval_impl`: every
ack-expectation entry is rebuilt with its existing expectation count and
the resolved `hard_durability` flag. -/
def set_durability (hard_durability : Bool) (ns : NamespaceRecord) : NamespaceRecord :=
  { ns with ack_expectations :=
      ns.ack_expectations.map fun p => (p.1, ⟨p.2.expectation, hard_durability⟩) }

/-- `table_create_term_t::write_eval_impl`: resolve the datacenter, the
durability and the primary key (default "id"); validate the table name;
`rcheck` that no table of that name exists in the database (status must
be `ERR_NONE`, else `"Table `db.name` already exists."`); build the
record via `new_namespace`, set its durability flags, insert it under a
fresh uuid; plan (MissingMachine re-raised as a generic user error);
propagate; then wait for readiness, reporting an interruption as
`"Query interrupted, probably by user."` while the committed metadata
stands.  `table_create_mutate` is the local insertion of the finished
record under the pre-generated uuid. -/
def table_create_mutate (env : Env) (s : Snapshot) (db_id dc_id : UUID)
    (tbl_name primary_key : String) (hard_durability : Bool) : Snapshot :=
  { s with namespaces := s.namespaces ++
      [(env.fresh_uuid, make_deletable (set_durability hard_durability
          (new_namespace env db_id dc_id tbl_name primary_key)))] }

def table_create (env : Env) (s : Snapshot) (db : DbHandle) (tbl_raw : String)
    (dcArg pkArg durArg : Option String) : OpOut :=
  match resolve_datacenter s dcArg with
  | .error e => ⟨s, [], .error e⟩
  | .ok dc_id =>
  match parse_durability_optarg durArg with
  | .error e => ⟨s, [], .error e⟩
  | .ok dur =>
  let hard_durability := is_hard dur
  let primary_key := pkArg.getD "id"
  match get_name tbl_raw "Table" with
  | .error e => ⟨s, [], .error e⟩
  | .ok tbl_name =>
  match (findUniqNs s (some tbl_name) db.id).1 with
  | .errNone =>
    let s1 := table_create_mutate env s db.id dc_id tbl_name primary_key hard_durability
    match env.plan s1 with
    | .error msg => ⟨s, [], .error (.user msg)⟩
    | .ok _ =>
      if env.readiness_interrupted then
        ⟨s1, [s1], .error (.user "Query interrupted, probably by user.")⟩
      else ⟨s1, [s1], .ok "created"⟩
  | _ => ⟨s, [], .error (.user ("Table `" ++ db.name ++ "." ++ tbl_name ++ "` already exists."))⟩

/-- `table_drop_term_t::write_eval_impl`: validate the table name;
`rcheck` that exactly one table of that name exists in the database
(status `SUCCESS`, else `"Table `db.name` does not exist."`);
`guarantee` it is not deleted; tombstone it; plan; propagate. -/
def table_drop (env : Env) (s : Snapshot) (db : DbHandle) (tbl_raw : String) : OpOut :=
  match get_name tbl_raw "Table" with
  | .error e => ⟨s, [], .error e⟩
  | .ok tbl_name =>
  match findUniqNs s (some tbl_name) db.id with
  | (.success, some r) =>
    if r.2.deleted then ⟨s, [], .error (.fatal "guarantee failed")⟩
    else
      let s1 : Snapshot :=
        { s with namespaces := s.namespaces.map fun p =>
            if p.1 == r.1 then (p.1, p.2.mark_deleted) else p }
      match env.plan s1 with
      | .error msg => ⟨s, [], .error (.user msg)⟩
      | .ok _ => ⟨s1, [s1], .ok "dropped"⟩
  | _ => ⟨s, [], .error (.user ("Table `" ++ db.name ++ "." ++ tbl_name ++ "` does not exist."))⟩

/-- Internal invariant violations raised by `guarantee` in the list
terms. -/
inductive FatalT where
  | guaranteeFailed
deriving DecidableEq, Repr

/-- Modelled from the spec (§4.1): the sequence of records the database
searcher's `find_next` iteration yields with the trivial predicate — the
non-deleted entries, in map iteration order. -/
def searcherAllDbs (s : Snapshot) : List (UUID × Deletable DatabaseRecord) :=
  s.databases.filter fun p => !p.2.deleted

/-- The loop body of `db_list_term_t::eval_impl` applied to one record
yielded by the searcher: `guarantee(!is_deleted)` (an encountered
deleted record is a fatal invariant violation, not a filtered item);
skip the record if its versioned name is in conflict; otherwise append
its name. -/
def db_list_step (acc : List String) (p : UUID × Deletable DatabaseRecord) :
    Except FatalT (List String) :=
  if p.2.deleted then .error .guaranteeFailed
  else if p.2.entity.name.inConflict then .ok acc
  else .ok (acc ++ [p.2.entity.name.value])

/-- `db_list_term_t::eval_impl`: fold the loop body over the searcher
iteration, producing the collected names. -/
def db_list_eval (s : Snapshot) : Except FatalT (List String) :=
  (searcherAllDbs s).foldlM db_list_step []

/-- Modelled from the spec (§4.1): the records the namespace searcher's
`find_next` iteration yields under the by-database-id predicate. -/
def searcherNssOf (s : Snapshot) (dbId : UUID) : List (UUID × Deletable NamespaceRecord) :=
  s.namespaces.filter (nsPred none dbId)

/-- The loop body of `table_list_term_t::eval_impl`, mirroring
`db_list_step`. -/
def table_list_step (acc : List String) (p : UUID × Deletable NamespaceRecord) :
    Except FatalT (List String) :=
  if p.2.deleted then .error .guaranteeFailed
  else if p.2.entity.name.inConflict then .ok acc
  else .ok (acc ++ [p.2.entity.name.value])

/-- `table_list_term_t::eval_impl`: fold the loop body over the searcher
iteration scoped to the database id. -/
def table_list_eval (s : Snapshot) (dbId : UUID) : Except FatalT (List String) :=
  (searcherNssOf s dbId).foldlM table_list_step []

/-- The table handle `table_term_t::eval_impl` constructs: the database
handle, the raw name string (taken with `as_str`, no validation and no
metadata lookup), and the `use_outdated` optarg defaulted to false. -/
structure TableHandle where
  db : DbHandle
  name : String
  use_outdated : Bool
deriving DecidableEq, Repr

/-- `table_term_t::eval_impl`: constructs the handle unconditionally —
it takes no metadata snapshot at all and cannot fail. -/
def table_term_eval (db : DbHandle) (nm : String) (use_outdated : Option Bool) : TableHandle :=
  ⟨db, nm, use_outdated.getD false⟩

/-- A minimal datum universe: a null value plus a few concrete shapes,
enough to distinguish null lookup results from rows. -/
inductive Datum where
  | null
  | str (s : String)
  | num (n : Nat)
deriving DecidableEq, Repr

/-- The table value `get`/`get_all` operate on: its primary key and the
storage collaborator's primary-key row lookup (`table_t::get_row`, which
returns the row or null when absent). -/
structure TableVal where
  pkey : String
  get_row : Datum → Datum

/-- The datum streams `get_all` can build: an eager in-memory array
(`array_datum_stream_t`), a lazy per-key secondary-index lookup
(`table_t::get_all`), and a union of streams
(`union_datum_stream_t`). -/
inductive DatumStream where
  | array (elems : List Datum)
  | indexLookup (key : Datum) (index : String)
  | union (streams : List DatumStream)

/-- `get_term_t::eval_impl`: a single primary-key row lookup. -/
def get_eval (t : TableVal) (key : Datum) : Datum :=
  t.get_row key

/-- `get_all_term_t::eval_impl`: when an index optarg is supplied and
differs from the table's primary key, build a union of one lazy index
lookup per key, in key order; otherwise look every key up eagerly via
`get_row` and build an array stream from the non-null results. -/
def get_all_eval (t : TableVal) (keys : List Datum) (index : Option String) : DatumStream :=
  let index_str := index.getD ""
  if index.isSome && index_str != t.pkey then
    .union (keys.map fun k => .indexLookup k index_str)
  else
    .array (keys.foldl (fun acc k =>
      let row := t.get_row k
      if row != .null then acc ++ [row] else acc) [])

/-- `meta_write_op_t::op_is_blocking` (source lines 88–92): metadata
write operations are blocking. -/
def meta_write_op_is_blocking : Bool := true

/-- `db_term_t::op_is_blocking`: false. -/
def db_term_is_blocking : Bool := false

/-- `db_list_term_t::op_is_blocking`: false. -/
def db_list_is_blocking : Bool := false

/-- `table_list_term_t::op_is_blocking`: false. -/
def table_list_is_blocking : Bool := false

/-- `table_term_t::op_is_blocking` (source lines 501–506): true — the
constructed datum stream loads a table when iterated. -/
def table_term_is_blocking : Bool := true

/-- Modelled from the spec (§5: "Pure local resolution (`db`, `table`,
`get`, `get_all`) is non-blocking structurally"): the default
`op_is_blocking` of `op_term_t`, which `get_term_t` and
`get_all_term_t` do not override, is false. -/
def default_op_is_blocking : Bool := false

/-- `get_term_t` does not override `op_is_blocking`. -/
def get_term_is_blocking : Bool := default_op_is_blocking

/-- `get_all_term_t` does not override `op_is_blocking`. -/
def get_all_is_blocking : Bool := default_op_is_blocking

/-- `db_create_term_t` inherits `meta_write_op_t`'s override. -/
def db_create_is_blocking : Bool := meta_write_op_is_blocking

/-- `db_drop_term_t` inherits `meta_write_op_t`'s override. -/
def db_drop_is_blocking : Bool := meta_write_op_is_blocking

/-- `table_create_term_t` inherits `meta_write_op_t`'s override. -/
def table_create_is_blocking : Bool := meta_write_op_is_blocking

/-- `table_drop_term_t` inherits `meta_write_op_t`'s override. -/
def table_drop_is_blocking : Bool := meta_write_op_is_blocking

/-- `sync_term_t` inherits `meta_write_op_t`'s override. -/
def sync_is_blocking : Bool := meta_write_op_is_blocking

/-!  ## Helper lemmas  -/

/-- Any record the by-name database search returns is non-deleted. -/
theorem dbMatches_alive {s : Snapshot} {nm : String}
    {p : UUID × Deletable DatabaseRecord} (h : p ∈ dbMatches s nm) :
    p.2.deleted = false := by
  have h2 := (List.mem_filter.mp h).2
  cases hdel : p.2.deleted
  · rfl
  · rw [hdel] at h2
    simp at h2

/-- Any record the namespace search returns is non-deleted. -/
theorem nsMatches_alive {s : Snapshot} {nm : Option String} {dbId : UUID}
    {p : UUID × Deletable NamespaceRecord} (h : p ∈ nsMatches s nm dbId) :
    p.2.deleted = false := by
  have h2 := (List.mem_filter.mp h).2
  cases hdel : p.2.deleted
  · rfl
  · simp [nsPred, hdel] at h2

/-- A durability optarg that parses successfully yields the hard flag
exactly when the optarg is not the string "soft". -/
theorem is_hard_of_parse {durArg : Option String} {dur : DurabilityRequirement}
    (h : parse_durability_optarg durArg = .ok dur) :
    (is_hard dur = true ↔ durArg ≠ some "soft") := by
  rcases durArg with _ | sarg
  · have hd : DurabilityRequirement.default = dur := Except.ok.inj h
    subst hd
    decide
  · by_cases h1 : sarg = "hard"
    · subst h1
      have he : parse_durability_optarg (some "hard") = .ok .hard := by decide
      rw [he] at h
      have hd := Except.ok.inj h
      subst hd
      decide
    · by_cases h2 : sarg = "soft"
      · subst h2
        have he : parse_durability_optarg (some "soft") = .ok .soft := by decide
        rw [he] at h
        have hd := Except.ok.inj h
        subst hd
        decide
      · simp [parse_durability_optarg, h1, h2] at h

/-!  ## Theorems settling the claims  -/

/-- C8 (counterexample): the claim that `db`, `table`, `get` and
`get_all` are all non-blocking while the five write terms are blocking
is false: `table_term_t::op_is_blocking` returns true in the source. -/
theorem c8_blocking_claim_false :
    ¬ (db_term_is_blocking = false ∧ table_term_is_blocking = false ∧
       get_term_is_blocking = false ∧ get_all_is_blocking = false ∧
       db_create_is_blocking = true ∧ db_drop_is_blocking = true ∧
       table_create_is_blocking = true ∧ table_drop_is_blocking = true ∧
       sync_is_blocking = true) := by
  decide

/-- C8 (amended): `db`, `get` and `get_all` are classified non-blocking,
while `table`, `db_create`, `db_drop`, `table_create`, `table_drop` and
`sync` are classified blocking (`db_list` and `table_list` are also
non-blocking). -/
theorem c8_blocking_classification :
    db_term_is_blocking = false ∧ get_term_is_blocking = false ∧
    get_all_is_blocking = false ∧ table_term_is_blocking = true ∧
    db_create_is_blocking = true ∧ db_drop_is_blocking = true ∧
    table_create_is_blocking = true ∧ table_drop_is_blocking = true ∧
    sync_is_blocking = true ∧
    db_list_is_blocking = false ∧ table_list_is_blocking = false := by
  decide

/-- C9: `table(db, name)` constructs its handle unconditionally — the
evaluation takes no metadata snapshot and always returns the handle made
of the database handle, the raw name, and the defaulted `use_outdated`
flag; by contrast `db(name)` succeeds only when a matching database
exists in the snapshot, and fails on a snapshot with no such database. -/
theorem c9_table_handle_without_lookup :
    (∀ (db : DbHandle) (nm : String) (u : Option Bool),
        table_term_eval db nm u = ⟨db, nm, u.getD false⟩)
    ∧ (∀ (s : Snapshot) (raw : String), dbMatches s raw = [] →
        ∀ h : DbHandle, db_term_eval s raw ≠ .ok h)
    ∧ db_term_eval ⟨[], [], []⟩ "missing" =
        .error (.user "Database `missing` does not exist.") := by
  refine ⟨fun db nm u => rfl, ?_, by decide⟩
  intro s raw hempty h
  by_cases hval : validName raw = true
  · simp [db_term_eval, get_name, hval, meta_get_uuid_db, findUniqDb, hempty]
  · simp [db_term_eval, get_name, hval]

/-- C9 witness. -/
theorem c9_witness :
    table_term_eval ⟨1, "d"⟩ "t" none = ⟨⟨1, "d"⟩, "t", false⟩
    ∧ db_term_eval ⟨[], [], []⟩ "d" ≠ .ok ⟨5, "d"⟩ :=
  ⟨c9_table_handle_without_lookup.1 ⟨1, "d"⟩ "t" none,
   c9_table_handle_without_lookup.2.1 ⟨[], [], []⟩ "d" (by decide) ⟨5, "d"⟩⟩

/-- C10: a datacenter optarg that fails name validation makes
`table_create` fail with the entity kind "Table" in the message —
`"Table name `...` invalid (...)"` — because the source validates the
datacenter string with `get_name(v, this, "Table")`; nothing is mutated
or committed. -/
theorem c10_datacenter_validated_as_table (env : Env) (s : Snapshot)
    (db : DbHandle) (tbl : String) (pkArg durArg : Option String) (d : String)
    (hd : validName d = false) :
    table_create env s db tbl (some d) pkArg durArg =
      ⟨s, [], .error (.user ("Table name `" ++ d ++ "` invalid (" ++ validCharMsg ++ ")."))⟩ := by
  simp [table_create, resolve_datacenter, get_name, hd]

/-- C10 witness. -/
theorem c10_witness :
    table_create ⟨0, 7, fun _ => .ok (), false, []⟩ ⟨[], [], []⟩ ⟨3, "d"⟩ "t"
        (some "bad name!") none none =
      ⟨⟨[], [], []⟩, [],
       .error (.user ("Table name `bad name!` invalid (" ++ validCharMsg ++ ")."))⟩ :=
  c10_datacenter_validated_as_table ⟨0, 7, fun _ => .ok (), false, []⟩ ⟨[], [], []⟩
    ⟨3, "d"⟩ "t" none none "bad name!" (by decide)

/-- C1: if a non-deleted, non-conflicted database named `x` exists in
the snapshot, `db_create(x)` fails with exactly
`"Database `x` already exists."`, commits nothing, and leaves the
authoritative snapshot (hence the existing database) untouched; if no
such database exists (and the planner succeeds on the mutated
snapshot), it inserts a fresh record and returns the "created" token. -/
theorem c1_db_create_uniqueness (env : Env) (s : Snapshot) (x : String)
    (hv : validName x = true) :
    (dbMatches s x ≠ [] →
        db_create env s x =
          ⟨s, [], .error (.user ("Database `" ++ x ++ "` already exists."))⟩)
    ∧ (dbMatches s x = [] → env.plan (db_create_mutate env s x) = .ok () →
        db_create env s x =
          ⟨db_create_mutate env s x, [db_create_mutate env s x], .ok "created"⟩
        ∧ (env.fresh_uuid, make_deletable ⟨⟨x, env.this_machine, false⟩⟩) ∈
            (db_create env s x).auth.databases) := by
  constructor
  · intro hne
    rcases hl : dbMatches s x with _ | ⟨p, t⟩
    · exact absurd hl hne
    · rcases t with _ | ⟨q, t2⟩ <;>
        simp [db_create, get_name, hv, findUniqDb, hl]
  · intro hl hplan
    have heq : db_create env s x =
        ⟨db_create_mutate env s x, [db_create_mutate env s x], .ok "created"⟩ := by
      simp [db_create, get_name, hv, findUniqDb, hl, hplan]
    refine ⟨heq, ?_⟩
    rw [heq]
    simp [db_create_mutate]

/-- C1 witness: with a database named "x" alive the second create fails
and changes nothing; against the empty snapshot the create commits the
fresh record. -/
theorem c1_witness :
    db_create ⟨0, 7, fun _ => .ok (), false, []⟩
        ⟨[(3, ⟨⟨⟨"x", 0, false⟩⟩, false⟩)], [], []⟩ "x" =
      ⟨⟨[(3, ⟨⟨⟨"x", 0, false⟩⟩, false⟩)], [], []⟩, [],
       .error (.user "Database `x` already exists.")⟩
    ∧ db_create ⟨0, 7, fun _ => .ok (), false, []⟩ ⟨[], [], []⟩ "x" =
      ⟨⟨[(7, ⟨⟨⟨"x", 0, false⟩⟩, false⟩)], [], []⟩,
       [⟨[(7, ⟨⟨⟨"x", 0, false⟩⟩, false⟩)], [], []⟩], .ok "created"⟩ :=
  ⟨(c1_db_create_uniqueness ⟨0, 7, fun _ => .ok (), false, []⟩
      ⟨[(3, ⟨⟨⟨"x", 0, false⟩⟩, false⟩)], [], []⟩ "x" (by decide)).1 (by decide),
   ((c1_db_create_uniqueness ⟨0, 7, fun _ => .ok (), false, []⟩
      ⟨[], [], []⟩ "x" (by decide)).2 (by decide) rfl).1⟩

/-- C2: when a unique alive database matches, `db_drop` tombstones every
table of that database and then the database itself in one local
mutation (`db_drop_mutate`), submits that single snapshot in one
propagation (the commit trace is the one-element list), and returns the
"dropped" token; in the mutated snapshot every table whose `db_id`
matches is deleted and the database record is deleted.  When no database
matches, it fails with `"Database `d` does not exist."` and changes
nothing. -/
theorem c2_db_drop_cascade (env : Env) (s : Snapshot) (d : String)
    (hv : validName d = true) :
    (∀ (db_id : UUID) (r : Deletable DatabaseRecord),
        dbMatches s d = [(db_id, r)] →
        env.plan (db_drop_mutate s db_id) = .ok () →
        db_drop env s d =
          ⟨db_drop_mutate s db_id, [db_drop_mutate s db_id], .ok "dropped"⟩
        ∧ (∀ p ∈ (db_drop_mutate s db_id).namespaces,
            p.2.entity.db_id = db_id → p.2.deleted = true)
        ∧ (∀ p ∈ (db_drop_mutate s db_id).databases,
            p.1 = db_id → p.2.deleted = true))
    ∧ (dbMatches s d = [] →
        db_drop env s d =
          ⟨s, [], .error (.user ("Database `" ++ d ++ "` does not exist."))⟩) := by
  constructor
  · intro db_id r hl hplan
    have halive : r.deleted = false :=
      dbMatches_alive (p := (db_id, r)) (hl ▸ List.mem_singleton.mpr rfl)
    refine ⟨by simp [db_drop, get_name, hv, findUniqDb, hl, halive, hplan], ?_, ?_⟩
    · intro p hp hdb
      simp only [db_drop_mutate, List.mem_map] at hp
      obtain ⟨q, hq, hfq⟩ := hp
      by_cases hpred : nsPred none db_id q = true
      · rw [if_pos hpred] at hfq
        subst hfq
        rfl
      · rw [if_neg hpred] at hfq
        subst hfq
        cases hdel : q.2.deleted
        · exact absurd (by simp [nsPred, hdel, hdb]) hpred
        · rfl
    · intro p hp hid
      simp only [db_drop_mutate, List.mem_map] at hp
      obtain ⟨q, hq, hfq⟩ := hp
      by_cases hkey : (q.1 == db_id) = true
      · rw [if_pos hkey] at hfq
        subst hfq
        rfl
      · rw [if_neg hkey] at hfq
        subst hfq
        exact absurd (beq_iff_eq.mpr hid) hkey
  · intro hl
    simp [db_drop, get_name, hv, findUniqDb, hl]

/-- C2 witness: dropping "d" (owning alive table t1 and tombstoned t3,
with t2 in another database) commits exactly one snapshot in which t1,
t3 and the database are deleted and t2 is untouched; dropping against
the empty snapshot fails with the does-not-exist message. -/
theorem c2_witness :
    db_drop ⟨0, 7, fun _ => .ok (), false, []⟩
      ⟨[(3, ⟨⟨⟨"d", 0, false⟩⟩, false⟩)],
       [(10, ⟨⟨3, 0, ⟨"t1", 0, false⟩, "id", []⟩, false⟩),
        (11, ⟨⟨9, 0, ⟨"t2", 0, false⟩, "id", []⟩, false⟩),
        (12, ⟨⟨3, 0, ⟨"t3", 0, false⟩, "id", []⟩, true⟩)],
       []⟩ "d" =
      ⟨⟨[(3, ⟨⟨⟨"d", 0, false⟩⟩, true⟩)],
        [(10, ⟨⟨3, 0, ⟨"t1", 0, false⟩, "id", []⟩, true⟩),
         (11, ⟨⟨9, 0, ⟨"t2", 0, false⟩, "id", []⟩, false⟩),
         (12, ⟨⟨3, 0, ⟨"t3", 0, false⟩, "id", []⟩, true⟩)],
        []⟩,
       [⟨[(3, ⟨⟨⟨"d", 0, false⟩⟩, true⟩)],
         [(10, ⟨⟨3, 0, ⟨"t1", 0, false⟩, "id", []⟩, true⟩),
          (11, ⟨⟨9, 0, ⟨"t2", 0, false⟩, "id", []⟩, false⟩),
          (12, ⟨⟨3, 0, ⟨"t3", 0, false⟩, "id", []⟩, true⟩)],
         []⟩],
       .ok "dropped"⟩
    ∧ db_drop ⟨0, 7, fun _ => .ok (), false, []⟩ ⟨[], [], []⟩ "d" =
      ⟨⟨[], [], []⟩, [], .error (.user "Database `d` does not exist.")⟩ :=
  ⟨((c2_db_drop_cascade ⟨0, 7, fun _ => .ok (), false, []⟩
      ⟨[(3, ⟨⟨⟨"d", 0, false⟩⟩, false⟩)],
       [(10, ⟨⟨3, 0, ⟨"t1", 0, false⟩, "id", []⟩, false⟩),
        (11, ⟨⟨9, 0, ⟨"t2", 0, false⟩, "id", []⟩, false⟩),
        (12, ⟨⟨3, 0, ⟨"t3", 0, false⟩, "id", []⟩, true⟩)],
       []⟩ "d" (by decide)).1 3 ⟨⟨⟨"d", 0, false⟩⟩, false⟩ (by decide) rfl).1,
   (c2_db_drop_cascade ⟨0, 7, fun _ => .ok (), false, []⟩
      ⟨[], [], []⟩ "d" (by decide)).2 (by decide)⟩

/-- C3: when `table_create` has committed its metadata mutation (the
commit trace holds exactly the mutated snapshot) and the readiness wait
is then interrupted, the caller sees the error
`"Query interrupted, probably by user."` — not a creation failure — and
the committed snapshot still contains the created table. -/
theorem c3_interrupt_after_commit (env : Env) (s : Snapshot) (db : DbHandle)
    (tbl : String) (dcArg pkArg durArg : Option String)
    (dc_id : UUID) (dur : DurabilityRequirement)
    (hdc : resolve_datacenter s dcArg = .ok dc_id)
    (hdur : parse_durability_optarg durArg = .ok dur)
    (hvt : validName tbl = true)
    (hnone : nsMatches s (some tbl) db.id = [])
    (hplan : env.plan (table_create_mutate env s db.id dc_id tbl
        (pkArg.getD "id") (is_hard dur)) = .ok ())
    (hint : env.readiness_interrupted = true) :
    table_create env s db tbl dcArg pkArg durArg =
      ⟨table_create_mutate env s db.id dc_id tbl (pkArg.getD "id") (is_hard dur),
       [table_create_mutate env s db.id dc_id tbl (pkArg.getD "id") (is_hard dur)],
       .error (.user "Query interrupted, probably by user.")⟩
    ∧ (env.fresh_uuid, make_deletable (set_durability (is_hard dur)
          (new_namespace env db.id dc_id tbl (pkArg.getD "id")))) ∈
        (table_create env s db tbl dcArg pkArg durArg).auth.namespaces := by
  have heq : table_create env s db tbl dcArg pkArg durArg =
      ⟨table_create_mutate env s db.id dc_id tbl (pkArg.getD "id") (is_hard dur),
       [table_create_mutate env s db.id dc_id tbl (pkArg.getD "id") (is_hard dur)],
       .error (.user "Query interrupted, probably by user.")⟩ := by
    simp [table_create, hdc, hdur, get_name, hvt, findUniqNs, hnone, hplan, hint]
  refine ⟨heq, ?_⟩
  rw [heq]
  simp [table_create_mutate]

/-- C3 witness. -/
theorem c3_witness :
    table_create ⟨0, 7, fun _ => .ok (), true, []⟩
        ⟨[(3, ⟨⟨⟨"d", 0, false⟩⟩, false⟩)], [], []⟩ ⟨3, "d"⟩ "t" none none none =
      ⟨⟨[(3, ⟨⟨⟨"d", 0, false⟩⟩, false⟩)],
        [(7, ⟨⟨3, 0, ⟨"t", 0, false⟩, "id", []⟩, false⟩)], []⟩,
       [⟨[(3, ⟨⟨⟨"d", 0, false⟩⟩, false⟩)],
         [(7, ⟨⟨3, 0, ⟨"t", 0, false⟩, "id", []⟩, false⟩)], []⟩],
       .error (.user "Query interrupted, probably by user.")⟩ :=
  (c3_interrupt_after_commit ⟨0, 7, fun _ => .ok (), true, []⟩
      ⟨[(3, ⟨⟨⟨"d", 0, false⟩⟩, false⟩)], [], []⟩ ⟨3, "d"⟩ "t" none none none
      nilUuid .default rfl rfl (by decide) (by decide) rfl rfl).1

/-- C5: a successful `table_create` commits a record whose primary key
is the supplied string, or exactly "id" when the argument is absent, and
whose ack-expectation entries all carry the hard flag exactly when the
durability argument is not "soft" (absent and "hard" give hard, "soft"
gives soft). -/
theorem c5_pkey_durability (env : Env) (s : Snapshot) (db : DbHandle)
    (tbl : String) (dcArg pkArg durArg : Option String)
    (dc_id : UUID) (dur : DurabilityRequirement)
    (hdc : resolve_datacenter s dcArg = .ok dc_id)
    (hdur : parse_durability_optarg durArg = .ok dur)
    (hvt : validName tbl = true)
    (hnone : nsMatches s (some tbl) db.id = [])
    (hplan : env.plan (table_create_mutate env s db.id dc_id tbl
        (pkArg.getD "id") (is_hard dur)) = .ok ())
    (hready : env.readiness_interrupted = false) :
    (table_create env s db tbl dcArg pkArg durArg).result = .ok "created"
    ∧ ∃ r : NamespaceRecord,
        (env.fresh_uuid, make_deletable r) ∈
          (table_create env s db tbl dcArg pkArg durArg).auth.namespaces
        ∧ r.primary_key = pkArg.getD "id"
        ∧ (pkArg = none → r.primary_key = "id")
        ∧ (∀ p, pkArg = some p → r.primary_key = p)
        ∧ ∀ e ∈ r.ack_expectations,
            (e.2.hardDurability = true ↔ durArg ≠ some "soft") := by
  have heq : table_create env s db tbl dcArg pkArg durArg =
      ⟨table_create_mutate env s db.id dc_id tbl (pkArg.getD "id") (is_hard dur),
       [table_create_mutate env s db.id dc_id tbl (pkArg.getD "id") (is_hard dur)],
       .ok "created"⟩ := by
    simp [table_create, hdc, hdur, get_name, hvt, findUniqNs, hnone, hplan, hready]
  refine ⟨by rw [heq], ?_⟩
  refine ⟨set_durability (is_hard dur) (new_namespace env db.id dc_id tbl (pkArg.getD "id")),
    ?_, rfl, fun h => by rw [h]; rfl, fun p h => by rw [h]; rfl, ?_⟩
  · rw [heq]
    simp [table_create_mutate]
  · intro e he
    simp only [set_durability, List.mem_map] at he
    obtain ⟨q, _, hfq⟩ := he
    have : e.2.hardDurability = is_hard dur := by
      rw [← hfq]
    rw [this]
    exact is_hard_of_parse hdur

/-- C5 witness: creating table "t" with primary key "pk" and soft
durability against a one-database snapshot succeeds, and the committed
record has primary key "pk" and a soft ack-expectation entry. -/
theorem c5_witness :
    (table_create ⟨0, 7, fun _ => .ok (), false, [(0, ⟨1, true⟩)]⟩
        ⟨[(3, ⟨⟨⟨"d", 0, false⟩⟩, false⟩)], [], []⟩ ⟨3, "d"⟩ "t"
        none (some "pk") (some "soft")).result = .ok "created"
    ∧ ∃ r : NamespaceRecord,
        (7, make_deletable r) ∈
          (table_create ⟨0, 7, fun _ => .ok (), false, [(0, ⟨1, true⟩)]⟩
              ⟨[(3, ⟨⟨⟨"d", 0, false⟩⟩, false⟩)], [], []⟩ ⟨3, "d"⟩ "t"
              none (some "pk") (some "soft")).auth.namespaces
        ∧ r.primary_key = (some "pk").getD "id"
        ∧ (some "pk" = none → r.primary_key = "id")
        ∧ (∀ p, some "pk" = some p → r.primary_key = p)
        ∧ ∀ e ∈ r.ack_expectations,
            (e.2.hardDurability = true ↔ some "soft" ≠ some "soft") :=
  c5_pkey_durability ⟨0, 7, fun _ => .ok (), false, [(0, ⟨1, true⟩)]⟩
    ⟨[(3, ⟨⟨⟨"d", 0, false⟩⟩, false⟩)], [], []⟩ ⟨3, "d"⟩ "t"
    none (some "pk") (some "soft") nilUuid .soft rfl (by decide) (by decide)
    (by decide) rfl rfl

/-- C4: when blueprint planning fails with MissingMachine, every write
operation surfaces it as a user-visible generic error (`ErrorT.user`,
an `rfail` with `base_exc_t::GENERIC`, not a fatal abort), and — since
the `fill_in_blueprints` call precedes `join_and_wait_to_propagate` —
the locally mutated snapshot is never submitted: the commit trace is
empty and the authoritative snapshot is unchanged, settling the open
question in favour of "aborts before committing". -/
theorem c4_missing_machine_aborts_before_commit (env : Env) (s : Snapshot)
    (msg : String) (x d tbl tbl2 : String) (db db2 : DbHandle)
    (dcArg pkArg durArg : Option String) (dc_id : UUID)
    (dur : DurabilityRequirement)
    (db_id : UUID) (rD : Deletable DatabaseRecord)
    (ns_id : UUID) (rT : Deletable NamespaceRecord)
    (hplan : ∀ t : Snapshot, env.plan t = .error msg)
    (hvx : validName x = true) (hx : dbMatches s x = [])
    (hvd : validName d = true) (hd : dbMatches s d = [(db_id, rD)])
    (hdc : resolve_datacenter s dcArg = .ok dc_id)
    (hdur : parse_durability_optarg durArg = .ok dur)
    (hvt : validName tbl = true) (ht : nsMatches s (some tbl) db.id = [])
    (hvt2 : validName tbl2 = true)
    (ht2 : nsMatches s (some tbl2) db2.id = [(ns_id, rT)]) :
    db_create env s x = ⟨s, [], .error (.user msg)⟩
    ∧ db_drop env s d = ⟨s, [], .error (.user msg)⟩
    ∧ table_create env s db tbl dcArg pkArg durArg = ⟨s, [], .error (.user msg)⟩
    ∧ table_drop env s db2 tbl2 = ⟨s, [], .error (.user msg)⟩ := by
  have haliveD : rD.deleted = false :=
    dbMatches_alive (p := (db_id, rD)) (hd ▸ List.mem_singleton.mpr rfl)
  have haliveT : rT.deleted = false :=
    nsMatches_alive (p := (ns_id, rT)) (ht2 ▸ List.mem_singleton.mpr rfl)
  refine ⟨?_, ?_, ?_, ?_⟩
  · simp [db_create, get_name, hvx, findUniqDb, hx, hplan]
  · simp [db_drop, get_name, hvd, findUniqDb, hd, haliveD, hplan]
  · simp [table_create, hdc, hdur, get_name, hvt, findUniqNs, ht, hplan]
  · simp [table_drop, get_name, hvt2, findUniqNs, ht2, haliveT, hplan]

/-- C4 witness: with a planner that always reports a missing machine,
all four write operations on a one-database, one-table snapshot return
the generic user error and commit nothing. -/
theorem c4_witness :
    db_create ⟨0, 7, fun _ => .error "Could not find machine.", false, []⟩
        ⟨[(3, ⟨⟨⟨"d", 0, false⟩⟩, false⟩)],
         [(10, ⟨⟨3, 0, ⟨"t", 0, false⟩, "id", []⟩, false⟩)], []⟩ "c" =
      ⟨⟨[(3, ⟨⟨⟨"d", 0, false⟩⟩, false⟩)],
        [(10, ⟨⟨3, 0, ⟨"t", 0, false⟩, "id", []⟩, false⟩)], []⟩, [],
       .error (.user "Could not find machine.")⟩
    ∧ db_drop ⟨0, 7, fun _ => .error "Could not find machine.", false, []⟩
        ⟨[(3, ⟨⟨⟨"d", 0, false⟩⟩, false⟩)],
         [(10, ⟨⟨3, 0, ⟨"t", 0, false⟩, "id", []⟩, false⟩)], []⟩ "d" =
      ⟨⟨[(3, ⟨⟨⟨"d", 0, false⟩⟩, false⟩)],
        [(10, ⟨⟨3, 0, ⟨"t", 0, false⟩, "id", []⟩, false⟩)], []⟩, [],
       .error (.user "Could not find machine.")⟩
    ∧ table_create ⟨0, 7, fun _ => .error "Could not find machine.", false, []⟩
        ⟨[(3, ⟨⟨⟨"d", 0, false⟩⟩, false⟩)],
         [(10, ⟨⟨3, 0, ⟨"t", 0, false⟩, "id", []⟩, false⟩)], []⟩ ⟨3, "d"⟩ "u"
        none none none =
      ⟨⟨[(3, ⟨⟨⟨"d", 0, false⟩⟩, false⟩)],
        [(10, ⟨⟨3, 0, ⟨"t", 0, false⟩, "id", []⟩, false⟩)], []⟩, [],
       .error (.user "Could not find machine.")⟩
    ∧ table_drop ⟨0, 7, fun _ => .error "Could not find machine.", false, []⟩
        ⟨[(3, ⟨⟨⟨"d", 0, false⟩⟩, false⟩)],
         [(10, ⟨⟨3, 0, ⟨"t", 0, false⟩, "id", []⟩, false⟩)], []⟩ ⟨3, "d"⟩ "t" =
      ⟨⟨[(3, ⟨⟨⟨"d", 0, false⟩⟩, false⟩)],
        [(10, ⟨⟨3, 0, ⟨"t", 0, false⟩, "id", []⟩, false⟩)], []⟩, [],
       .error (.user "Could not find machine.")⟩ :=
  c4_missing_machine_aborts_before_commit
    ⟨0, 7, fun _ => .error "Could not find machine.", false, []⟩
    ⟨[(3, ⟨⟨⟨"d", 0, false⟩⟩, false⟩)],
     [(10, ⟨⟨3, 0, ⟨"t", 0, false⟩, "id", []⟩, false⟩)], []⟩
    "Could not find machine." "c" "d" "u" "t" ⟨3, "d"⟩ ⟨3, "d"⟩
    none none none nilUuid .default 3 ⟨⟨⟨"d", 0, false⟩⟩, false⟩
    10 ⟨⟨3, 0, ⟨"t", 0, false⟩, "id", []⟩, false⟩
    (fun _ => rfl) (by decide) (by decide) (by decide) (by decide)
    rfl rfl (by decide) (by decide) (by decide) (by decide)

/-- Folding the db_list loop body over non-deleted records collects
exactly the non-conflicted names, in iteration order. -/
theorem db_list_fold (l : List (UUID × Deletable DatabaseRecord))
    (hl : ∀ p ∈ l, p.2.deleted = false) :
    ∀ acc : List String,
      l.foldlM db_list_step acc =
        .ok (acc ++ (l.filter fun p => !p.2.entity.name.inConflict).map
              fun p => p.2.entity.name.value) := by
  induction l with
  | nil =>
    intro acc
    show Except.ok acc = _
    simp
  | cons p t ih =>
    intro acc
    have hp := hl p (List.mem_cons_self p t)
    have ht : ∀ q ∈ t, q.2.deleted = false := fun q hq =>
      hl q (List.mem_cons_of_mem p hq)
    by_cases hc : p.2.entity.name.inConflict = true
    · have hstep : db_list_step acc p = .ok acc := by
        simp [db_list_step, hp, hc]
      have h2 : (p :: t).foldlM db_list_step acc = t.foldlM db_list_step acc := by
        rw [List.foldlM_cons, hstep]
        rfl
      rw [h2, ih ht acc]
      simp [List.filter_cons, hc]
    · have hstep : db_list_step acc p = .ok (acc ++ [p.2.entity.name.value]) := by
        simp [db_list_step, hp, hc]
      have h2 : (p :: t).foldlM db_list_step acc
          = t.foldlM db_list_step (acc ++ [p.2.entity.name.value]) := by
        rw [List.foldlM_cons, hstep]
        rfl
      rw [h2, ih ht]
      simp [List.filter_cons, hc]

/-- Folding the table_list loop body over non-deleted records collects
exactly the non-conflicted names, in iteration order. -/
theorem table_list_fold (l : List (UUID × Deletable NamespaceRecord))
    (hl : ∀ p ∈ l, p.2.deleted = false) :
    ∀ acc : List String,
      l.foldlM table_list_step acc =
        .ok (acc ++ (l.filter fun p => !p.2.entity.name.inConflict).map
              fun p => p.2.entity.name.value) := by
  induction l with
  | nil =>
    intro acc
    show Except.ok acc = _
    simp
  | cons p t ih =>
    intro acc
    have hp := hl p (List.mem_cons_self p t)
    have ht : ∀ q ∈ t, q.2.deleted = false := fun q hq =>
      hl q (List.mem_cons_of_mem p hq)
    by_cases hc : p.2.entity.name.inConflict = true
    · have hstep : table_list_step acc p = .ok acc := by
        simp [table_list_step, hp, hc]
      have h2 : (p :: t).foldlM table_list_step acc = t.foldlM table_list_step acc := by
        rw [List.foldlM_cons, hstep]
        rfl
      rw [h2, ih ht acc]
      simp [List.filter_cons, hc]
    · have hstep : table_list_step acc p = .ok (acc ++ [p.2.entity.name.value]) := by
        simp [table_list_step, hp, hc]
      have h2 : (p :: t).foldlM table_list_step acc
          = t.foldlM table_list_step (acc ++ [p.2.entity.name.value]) := by
        rw [List.foldlM_cons, hstep]
        rfl
      rw [h2, ih ht]
      simp [List.filter_cons, hc]

/-- C6: `db_list` returns exactly the names of the non-deleted databases
whose name is not in conflict, and `table_list` those of the non-deleted,
non-conflicted tables of the given database, each in searcher-iteration
order; the loop bodies turn an encountered deleted record into a fatal
`guarantee` failure rather than filtering it. -/
theorem c6_list_terms (s : Snapshot) (dbId : UUID) :
    db_list_eval s = .ok ((s.databases.filter fun p =>
        !p.2.deleted && !p.2.entity.name.inConflict).map
          fun p => p.2.entity.name.value)
    ∧ table_list_eval s dbId = .ok ((s.namespaces.filter fun p =>
        !p.2.deleted && !p.2.entity.name.inConflict &&
          p.2.entity.db_id == dbId).map fun p => p.2.entity.name.value)
    ∧ (∀ (acc : List String) (p : UUID × Deletable DatabaseRecord),
        p.2.deleted = true → db_list_step acc p = .error .guaranteeFailed)
    ∧ (∀ (acc : List String) (p : UUID × Deletable NamespaceRecord),
        p.2.deleted = true → table_list_step acc p = .error .guaranteeFailed) := by
  refine ⟨?_, ?_, ?_, ?_⟩
  · have hfold := db_list_fold (searcherAllDbs s)
      (fun p hp => by simpa using (List.mem_filter.mp hp).2) []
    have h1 : db_list_eval s =
        .ok (((s.databases.filter fun p => !p.2.deleted).filter
            fun p => !p.2.entity.name.inConflict).map
          fun p => p.2.entity.name.value) := by
      simpa [db_list_eval, searcherAllDbs] using hfold
    rw [h1, List.filter_filter]
    refine congrArg _ (congrArg _ (List.filter_congr ?_))
    intro a _
    cases hd : a.2.deleted <;> cases hc : a.2.entity.name.inConflict <;>
      simp [hd, hc]
  · have hfold := table_list_fold (searcherNssOf s dbId)
      (fun p hp => nsMatches_alive hp) []
    have h1 : table_list_eval s dbId =
        .ok (((s.namespaces.filter (nsPred none dbId)).filter
            fun p => !p.2.entity.name.inConflict).map
          fun p => p.2.entity.name.value) := by
      simpa [table_list_eval, searcherNssOf] using hfold
    rw [h1, List.filter_filter]
    refine congrArg _ (congrArg _ (List.filter_congr ?_))
    intro a _
    cases hd : a.2.deleted <;> cases hc : a.2.entity.name.inConflict <;>
      cases he : a.2.entity.db_id == dbId <;> simp [nsPred, hd, hc, he]
  · intro acc p h
    simp [db_list_step, h]
  · intro acc p h
    simp [table_list_step, h]

/-- C6 witness: a snapshot with a conflicted database name, a tombstoned
database, a foreign-database table, a conflicted table name and a
tombstoned table lists exactly the alive, non-conflicted names; the loop
bodies report a fatal invariant violation on a deleted record. -/
theorem c6_witness :
    db_list_eval ⟨[(1, ⟨⟨⟨"a", 0, false⟩⟩, false⟩),
                   (2, ⟨⟨⟨"b", 0, true⟩⟩, false⟩),
                   (9, ⟨⟨⟨"c", 0, false⟩⟩, true⟩)],
                  [(10, ⟨⟨3, 0, ⟨"t1", 0, false⟩, "id", []⟩, false⟩),
                   (11, ⟨⟨3, 0, ⟨"t2", 0, true⟩, "id", []⟩, false⟩),
                   (12, ⟨⟨4, 0, ⟨"t3", 0, false⟩, "id", []⟩, false⟩),
                   (13, ⟨⟨3, 0, ⟨"t4", 0, false⟩, "id", []⟩, true⟩)], []⟩
      = .ok ["a"]
    ∧ table_list_eval ⟨[(1, ⟨⟨⟨"a", 0, false⟩⟩, false⟩),
                   (2, ⟨⟨⟨"b", 0, true⟩⟩, false⟩),
                   (9, ⟨⟨⟨"c", 0, false⟩⟩, true⟩)],
                  [(10, ⟨⟨3, 0, ⟨"t1", 0, false⟩, "id", []⟩, false⟩),
                   (11, ⟨⟨3, 0, ⟨"t2", 0, true⟩, "id", []⟩, false⟩),
                   (12, ⟨⟨4, 0, ⟨"t3", 0, false⟩, "id", []⟩, false⟩),
                   (13, ⟨⟨3, 0, ⟨"t4", 0, false⟩, "id", []⟩, true⟩)], []⟩ 3
      = .ok ["t1"]
    ∧ db_list_step [] (1, ⟨⟨⟨"z", 0, false⟩⟩, true⟩) = .error .guaranteeFailed
    ∧ table_list_step [] (2, ⟨⟨3, 0, ⟨"z", 0, false⟩, "id", []⟩, true⟩)
      = .error .guaranteeFailed :=
  ⟨(c6_list_terms ⟨[(1, ⟨⟨⟨"a", 0, false⟩⟩, false⟩),
                   (2, ⟨⟨⟨"b", 0, true⟩⟩, false⟩),
                   (9, ⟨⟨⟨"c", 0, false⟩⟩, true⟩)],
                  [(10, ⟨⟨3, 0, ⟨"t1", 0, false⟩, "id", []⟩, false⟩),
                   (11, ⟨⟨3, 0, ⟨"t2", 0, true⟩, "id", []⟩, false⟩),
                   (12, ⟨⟨4, 0, ⟨"t3", 0, false⟩, "id", []⟩, false⟩),
                   (13, ⟨⟨3, 0, ⟨"t4", 0, false⟩, "id", []⟩, true⟩)], []⟩ 3).1,
   (c6_list_terms ⟨[(1, ⟨⟨⟨"a", 0, false⟩⟩, false⟩),
                   (2, ⟨⟨⟨"b", 0, true⟩⟩, false⟩),
                   (9, ⟨⟨⟨"c", 0, false⟩⟩, true⟩)],
                  [(10, ⟨⟨3, 0, ⟨"t1", 0, false⟩, "id", []⟩, false⟩),
                   (11, ⟨⟨3, 0, ⟨"t2", 0, true⟩, "id", []⟩, false⟩),
                   (12, ⟨⟨4, 0, ⟨"t3", 0, false⟩, "id", []⟩, false⟩),
                   (13, ⟨⟨3, 0, ⟨"t4", 0, false⟩, "id", []⟩, true⟩)], []⟩ 3).2.1,
   (c6_list_terms ⟨[], [], []⟩ 0).2.2.1 [] (1, ⟨⟨⟨"z", 0, false⟩⟩, true⟩) rfl,
   (c6_list_terms ⟨[], [], []⟩ 0).2.2.2 [] (2, ⟨⟨3, 0, ⟨"z", 0, false⟩, "id", []⟩, true⟩) rfl⟩

/-- The eager accumulation loop of `get_all` collects, in key order, the
non-null primary-key lookups. -/
theorem get_all_fold (t : TableVal) (keys : List Datum) :
    ∀ acc : List Datum,
      keys.foldl (fun acc k =>
        let row := t.get_row k
        if row != .null then acc ++ [row] else acc) acc
      = acc ++ (keys.map t.get_row).filter fun r => r != .null := by
  induction keys with
  | nil =>
    intro acc
    simp
  | cons k ks ih =>
    intro acc
    simp only [List.foldl_cons, List.map_cons, List.filter_cons]
    by_cases h : (t.get_row k != Datum.null) = true
    · rw [if_pos h, ih, if_pos h]
      simp
    · rw [if_neg h, ih, if_neg h]

/-- C7: with an index argument different from the table's primary key,
`get_all` builds a lazy union of one per-key index-lookup stream per
key, in key order; with the argument absent or equal to the primary
key, it looks each key up eagerly through the primary-key row lookup and
returns a finite array stream of the non-null results, in key order. -/
theorem c7_get_all_paths (t : TableVal) (keys : List Datum) :
    (∀ i : String, i ≠ t.pkey →
        get_all_eval t keys (some i) =
          .union (keys.map fun k => .indexLookup k i))
    ∧ get_all_eval t keys none =
        .array ((keys.map t.get_row).filter fun r => r != .null)
    ∧ get_all_eval t keys (some t.pkey) =
        .array ((keys.map t.get_row).filter fun r => r != .null) := by
  refine ⟨?_, ?_, ?_⟩
  · intro i hi
    have hb : (i != t.pkey) = true := bne_iff_ne.mpr hi
    simp [get_all_eval, hb]
  · have := get_all_fold t keys []
    simp only [get_all_eval, Option.isSome_none, Bool.false_and, if_neg]
    simpa using this
  · have := get_all_fold t keys []
    have hb : (t.pkey != t.pkey) = false := by
      simp
    simp only [get_all_eval, Option.getD_some, Option.isSome_some, Bool.true_and, hb,
      Bool.false_eq_true, if_false]
    simpa using this

/-- C7 witness: on a table with primary key "id" whose row lookup finds
only key 1, a secondary-index `get_all` is a union of lazy lookups while
the primary-key paths yield the eager array without the missed key. -/
theorem c7_witness :
    get_all_eval ⟨"id", fun k => if k == .num 1 then .str "r" else .null⟩
        [.num 1, .num 2] (some "sidx")
      = .union [.indexLookup (.num 1) "sidx", .indexLookup (.num 2) "sidx"]
    ∧ get_all_eval ⟨"id", fun k => if k == .num 1 then .str "r" else .null⟩
        [.num 1, .num 2] none
      = .array [.str "r"]
    ∧ get_all_eval ⟨"id", fun k => if k == .num 1 then .str "r" else .null⟩
        [.num 1, .num 2] (some "id")
      = .array [.str "r"] :=
  ⟨(c7_get_all_paths ⟨"id", fun k => if k == .num 1 then .str "r" else .null⟩
      [.num 1, .num 2]).1 "sidx" (by decide),
   (c7_get_all_paths ⟨"id", fun k => if k == .num 1 then .str "r" else .null⟩
      [.num 1, .num 2]).2.1,
   (c7_get_all_paths ⟨"id", fun k => if k == .num 1 then .str "r" else .null⟩
      [.num 1, .num 2]).2.2⟩

end RethinkDB
